import Mathlib

/-!
Shallow embedding of `eth_price_bot.py` (repository `ETH_price_notification`).

Numeric samples, thresholds and gas prices are modelled as rationals `ℚ`:
every comparison and arithmetic operation the bot performs on them
(`<`, `>=`, `-`, `/ 1e9`) is exact on the concrete decimal values the
claims are about, so no floating-point rounding behaviour is load-bearing.
-/

namespace EthBot

/-- The three coins of the `COINS` / `THRESHOLDS` dictionaries
(`eth_price_bot.py` lines 23-34). -/
inductive Coin
  | BTC
  | ETH
  | AERO
deriving DecidableEq, Repr

/-- Dictionary iteration order of `COINS` (and hence of the `prices`
dict built in `get_prices`): insertion order BTC, ETH, AERO. -/
def coinsOrder : List Coin := [Coin.BTC, Coin.ETH, Coin.AERO]

/-- The symbol string of a coin (the dict keys). -/
def coinName : Coin → String
  | Coin.BTC => "BTC"
  | Coin.ETH => "ETH"
  | Coin.AERO => "AERO"

/-- Direction word interpolated into the alert condition text:
`"упал(а) ниже $..."` vs `"выросла выше $..."`. -/
inductive AlertDir
  | fellBelow
  | roseAbove
deriving DecidableEq, Repr

/-- One `send_alert(symbol, price, condition)` call (line 270-272).
`thrShown` is the threshold value interpolated into the condition text —
in the source this is always a lookup in the static module-level
`THRESHOLDS` dict, not the mutable `self.thresholds`. -/
structure Alert where
  symbol : String
  price : ℚ
  dir : AlertDir
  thrShown : ℚ
deriving DecidableEq, Repr

/-! ### `gas_check` (lines 208-261)

`self.gas_below_threshold : Option Bool` starts as `None` (line 87).
The fetched gas price and the critical level are the two rational inputs;
the function mutates the state and sends at most one message. -/

/-- Kind of gas notification (the three message texts in `gas_check`). -/
inductive GasMsgKind
  | alreadyBelow
  | droppedBelow
  | roseAbove
deriving DecidableEq, Repr

/-- A gas notification with the two values interpolated into its text. -/
structure GasMsg where
  kind : GasMsgKind
  gas : ℚ
  critical : ℚ
deriving DecidableEq, Repr

/-- Result of one `gas_check` evaluation: the new
`self.gas_below_threshold` and the messages sent (0 or 1). -/
structure GasOut where
  state : Option Bool
  msgs : List GasMsg
deriving DecidableEq, Repr

/-- `gas_check` body after a successful gas fetch (lines 229-261):
initialisation on first sample, then edge-triggered crossing alerts. -/
def gas_check (st : Option Bool) (gas critical : ℚ) : GasOut :=
  match st with
  | none =>
    let below := decide (gas < critical)
    ⟨some below, if below then [⟨GasMsgKind.alreadyBelow, gas, critical⟩] else []⟩
  | some false =>
    if gas < critical then
      ⟨some true, [⟨GasMsgKind.droppedBelow, gas, critical⟩]⟩
    else
      ⟨some false, []⟩
  | some true =>
    if gas ≥ critical then
      ⟨some false, [⟨GasMsgKind.roseAbove, gas, critical⟩]⟩
    else
      ⟨some true, []⟩

/-! ### `check_gigavault` (lines 158-176)

The fetched JSON's `results` array is a list of vault records; the code
looks at each record named `"Gigavault"`, compares its `max_tvl` with the
stored `self.prev_max_tvl["Gigavault"]`, notifies on a strict increase,
and always overwrites the stored value. -/

/-- A record of the vault API's `results` array; only the two fields the
code reads (`name`, `max_tvl`; a missing `max_tvl` defaults to 0 via
`.get('max_tvl', 0)`, modelled as the value already substituted). -/
structure Vault where
  name : String
  max_tvl : ℚ
deriving DecidableEq, Repr

/-- Vault notification content: the three values interpolated into the
message (`prev`, `max_tvl`, `free_space = max_tvl - prev`). -/
structure VaultMsg where
  prev : ℚ
  newv : ℚ
  delta : ℚ
deriving DecidableEq, Repr

/-- Processing of one element of `vaults['results']` (lines 161-176):
returns the updated stored previous value and the notification, if any. -/
def check_gigavault_step (prev : ℚ) (v : Vault) : ℚ × List VaultMsg :=
  if v.name = "Gigavault" then
    let msgs := if v.max_tvl > prev then [⟨prev, v.max_tvl, v.max_tvl - prev⟩] else []
    (v.max_tvl, msgs)
  else
    (prev, [])

/-- `check_gigavault` over the whole `results` list, threading the stored
previous value through the loop. -/
def check_gigavault (prev : ℚ) : List Vault → ℚ × List VaultMsg
  | [] => (prev, [])
  | v :: rest =>
    let r := check_gigavault_step prev v
    let rest' := check_gigavault r.1 rest
    (rest'.1, r.2 ++ rest'.2)

/-! ### `price_check` (lines 108-117)

Decisions compare against the mutable `self.thresholds`; the condition
texts interpolate the static module-level `THRESHOLDS`.  The ETH branch
builds a second condition text from `THRESHOLDS['CRV']` — a key the
`THRESHOLDS` dict literal (lines 30-34) never contains — so evaluating
that f-string raises `KeyError` before the second `send_alert` runs. -/

/-- Outcome of `price_check` on one poll: the alerts actually sent, and
whether the `KeyError` from `THRESHOLDS['CRV']` was raised. -/
structure PriceOut where
  alerts : List Alert
  crashed : Bool
deriving DecidableEq, Repr

/-- One iteration of the `for symbol, price in prices.items()` loop,
with `mutThr` the mutable `self.thresholds` and `static` the module-level
`THRESHOLDS`.  Returns the alerts sent during the iteration and whether
it raised `KeyError`. -/
def price_check_one (mutThr stat : Coin → ℚ) (c : Coin) (p : ℚ) : List Alert × Bool :=
  match c with
  | Coin.BTC =>
    (if p < mutThr Coin.BTC then [⟨"BTC", p, AlertDir.fellBelow, stat Coin.BTC⟩] else [], false)
  | Coin.ETH =>
    if p < mutThr Coin.ETH then
      ([⟨"ETH", p, AlertDir.fellBelow, stat Coin.ETH⟩], true)
    else
      ([], false)
  | Coin.AERO =>
    (if p > mutThr Coin.AERO then [⟨"AERO", p, AlertDir.roseAbove, stat Coin.AERO⟩] else [], false)

/-- The loop over the fetched `prices` items, stopping when an iteration
raises. -/
def price_check_list (mutThr stat : Coin → ℚ) : List (Coin × ℚ) → PriceOut
  | [] => ⟨[], false⟩
  | (c, p) :: rest =>
    let r := price_check_one mutThr stat c p
    if r.2 then ⟨r.1, true⟩
    else
      let o := price_check_list mutThr stat rest
      ⟨r.1 ++ o.alerts, o.crashed⟩

/-- The `prices` dict of `get_prices` as an items list in `COINS` order;
a coin absent from the API response is absent from the dict. -/
def priceItems (prices : Coin → Option ℚ) : List (Coin × ℚ) :=
  coinsOrder.filterMap fun c => (prices c).map fun p => (c, p)

/-- `price_check` on one poll, given the fetched prices. -/
def price_check (mutThr stat : Coin → ℚ) (prices : Coin → Option ℚ) : PriceOut :=
  price_check_list mutThr stat (priceItems prices)

/-! ### One fast-cycle tick of `run_checks` (lines 349-358)

The loop body runs `price_check`, then `check_gigavault`, then
`gas_check`; any exception escaping one of them is caught by the
`except` of `run_checks` (logged, 60 s backoff), aborting the rest of
that tick.  A failed price fetch yields an empty dict (line 106); a
failed vault fetch makes `get_gigavault_data` return `None` (lines
150, 156), which `check_gigavault` then subscripts (`vaults['results']`,
line 161), raising `TypeError`; a failed gas fetch makes `gas_check`
return early (lines 214-216). -/

/-- Mutable per-instance state read and written by one tick. -/
structure TickState where
  prevMaxTvl : ℚ
  gasBelow : Option Bool
deriving DecidableEq, Repr

/-- The external samples one tick observes: the price dict, the vault
fetch result (`none` = `get_gigavault_data` returned `None`), the gas
fetch result (`none` = `get_eth_gas_gwei` returned an error), and the
parsed `GAS_CRITICAL_GWEI` level. -/
structure TickInput where
  prices : Coin → Option ℚ
  vaultFetch : Option (List Vault)
  gasFetch : Option ℚ
  gasCritical : ℚ

/-- Everything observable about one tick: notifications sent, which
exception (if any) aborted it, whether `gas_check` was invoked, and the
state left behind. -/
structure TickOutput where
  alerts : List Alert
  vaultMsgs : List VaultMsg
  gasMsgs : List GasMsg
  priceCrashed : Bool
  vaultCrashed : Bool
  gasRan : Bool
  state : TickState
deriving DecidableEq, Repr

/-- One iteration of the `while True` body of `run_checks`. -/
def run_checks_tick (mutThr stat : Coin → ℚ) (st : TickState) (inp : TickInput) : TickOutput :=
  let pc := price_check mutThr stat inp.prices
  if pc.crashed then
    ⟨pc.alerts, [], [], true, false, false, st⟩
  else
    match inp.vaultFetch with
    | none => ⟨pc.alerts, [], [], false, true, false, st⟩
    | some vaults =>
      let vr := check_gigavault st.prevMaxTvl vaults
      match inp.gasFetch with
      | none => ⟨pc.alerts, vr.2, [], false, false, true, ⟨vr.1, st.gasBelow⟩⟩
      | some g =>
        let go := gas_check st.gasBelow g inp.gasCritical
        ⟨pc.alerts, vr.2, go.msgs, false, false, true, ⟨vr.1, go.state⟩⟩

/-- The default thresholds of the `THRESHOLDS` dict literal (lines 30-34)
when no environment overrides are present. -/
def defaultThr : Coin → ℚ
  | Coin.BTC => 99000
  | Coin.ETH => 3300
  | Coin.AERO => 1/5

/-- Price-feed scenario of the spec's end-to-end example:
`{BTC: 94000, ETH: 3500}`, no AERO sample. -/
def scenPrices : Coin → Option ℚ
  | Coin.BTC => some 94000
  | Coin.ETH => some 3500
  | Coin.AERO => none

/-- Thresholds of the spec's end-to-end example:
`{BTC: below 95000, ETH: below 3000}` (AERO at its default). -/
def scenThr : Coin → ℚ
  | Coin.BTC => 95000
  | Coin.ETH => 3000
  | Coin.AERO => 1/5

/-- C1: for the `below`-direction signals (BTC, ETH), any poll whose
fetched sample is strictly below that signal's current (mutable)
threshold sends an alert for that signal on that very poll, with no
dependence on prior state (the evaluation is stateless, hence
level-triggered); and on the spec's concrete scenario
(`BTC 94000 / ETH 3500` against `BTC 95000 / ETH 3000`) exactly one
alert is sent — for BTC — and none for ETH, with no exception. -/
theorem spec2_C1 :
    (∀ (mutThr stat : Coin → ℚ) (prices : Coin → Option ℚ) (c : Coin) (p : ℚ),
        (c = Coin.BTC ∨ c = Coin.ETH) → prices c = some p → p < mutThr c →
        ∃ a ∈ (price_check mutThr stat prices).alerts, a.symbol = coinName c ∧ a.price = p)
  ∧ price_check scenThr scenThr scenPrices
      = ⟨[⟨"BTC", 94000, AlertDir.fellBelow, 95000⟩], false⟩ := by
  refine ⟨?_, by decide⟩
  rintro mutThr stat prices c p (rfl | rfl) hp h
  · refine ⟨⟨"BTC", p, AlertDir.fellBelow, stat Coin.BTC⟩, ?_, rfl, rfl⟩
    simp [price_check, priceItems, coinsOrder, hp, price_check_list, price_check_one, h]
  · refine ⟨⟨"ETH", p, AlertDir.fellBelow, stat Coin.ETH⟩, ?_, rfl, rfl⟩
    cases hB : prices Coin.BTC <;>
      simp [price_check, priceItems, coinsOrder, hp, hB, price_check_list, price_check_one, h]

/-- Witness for C1 at the spec's scenario input. -/
theorem spec2_C1_witness :
    ∃ a ∈ (price_check scenThr scenThr scenPrices).alerts,
      a.symbol = coinName Coin.BTC ∧ a.price = 94000 :=
  spec2_C1.1 scenThr scenThr scenPrices Coin.BTC 94000 (Or.inl rfl) rfl (by decide)

/-- C2: the gas check is edge-triggered with hysteresis.  From the
uninitialized state the new state records whether the sample is below
`critical`, with exactly one "already below" notification iff it is;
from an initialized state a single notification is sent exactly on a
side change ("dropped below" or "rose above" as appropriate), and none
otherwise, the state always recording the sample's current side. -/
theorem spec2_C2 :
    ∀ (g c : ℚ) (b : Bool),
      gas_check none g c
        = ⟨some (decide (g < c)),
            if g < c then [⟨GasMsgKind.alreadyBelow, g, c⟩] else []⟩
    ∧ gas_check (some b) g c
        = ⟨some (decide (g < c)),
            if decide (g < c) = b then []
            else if g < c then [⟨GasMsgKind.droppedBelow, g, c⟩]
            else [⟨GasMsgKind.roseAbove, g, c⟩]⟩ := by
  intro g c b
  constructor
  · by_cases h : g < c <;> simp [gas_check, h]
  · cases b <;> by_cases h : g < c <;>
      simp [gas_check, h, le_of_not_lt, not_le.2]

/-- C3: one Gigavault record against the stored previous value: a strict
increase sends exactly one notification carrying
`(previous, new, new - previous)`; otherwise no notification; in both
cases the stored value is overwritten with the fetched one. -/
theorem spec2_C3 :
    ∀ (prev m : ℚ),
      (m > prev →
        check_gigavault prev [⟨"Gigavault", m⟩] = (m, [⟨prev, m, m - prev⟩]))
    ∧ (¬ m > prev →
        check_gigavault prev [⟨"Gigavault", m⟩] = (m, [])) := by
  intro prev m
  constructor <;> intro h <;>
    simp [check_gigavault, check_gigavault_step, h]

/-- Witness for C3: an increase from 90 000 000 to 95 000 000 notifies
with delta 5 000 000; a drop to 80 000 000 is silent but stored. -/
theorem spec2_C3_witness :
    check_gigavault 90000000 [⟨"Gigavault", 95000000⟩]
        = (95000000, [⟨90000000, 95000000, 5000000⟩])
    ∧ check_gigavault 90000000 [⟨"Gigavault", 80000000⟩] = (80000000, []) := by
  constructor
  · have h := (spec2_C3 90000000 95000000).1 (by norm_num)
    norm_num at h
    exact h
  · exact (spec2_C3 90000000 80000000).2 (by norm_num)

/-- Tick input in which the vault fetch failed (`get_gigavault_data`
returned `None`, e.g. after a non-200 vault API response) while the gas
fetch would have succeeded. -/
def vaultFailInput : TickInput := ⟨fun _ => none, none, some 5, 7⟩

/-- C5 (code behaviour at the claim's failing input): when the vault
fetch fails, `check_gigavault` subscripts `None` and raises, so the tick
aborts — the gas check of that tick is never invoked, contradicting the
claim that a single fetch failure leaves the rest of the tick running. -/
theorem spec2_C5_thm :
    run_checks_tick defaultThr defaultThr ⟨90000000, none⟩ vaultFailInput
      = ⟨[], [], [], false, true, false, ⟨90000000, none⟩⟩ := by
  decide

/-- Tick input whose only sample is an ETH price of 2900, strictly below
the default ETH threshold 3300. -/
def ethLowInput : TickInput :=
  ⟨fun c => match c with | Coin.ETH => some 2900 | _ => none,
   some [⟨"Gigavault", 95000000⟩], some 5, 7⟩

/-- Counterexample to C9 as stated: with ETH fetched at 2900 < 3300, the
tick sends exactly ONE alert for ETH (the "fell below" one) — not two —
because the `KeyError` from `THRESHOLDS['CRV']` is raised while building
the second message's text, before the second `send_alert` call. -/
theorem spec2_C9_cex :
    run_checks_tick defaultThr defaultThr ⟨90000000, none⟩ ethLowInput
      = ⟨[⟨"ETH", 2900, AlertDir.fellBelow, 3300⟩], [], [], true, false, false,
         ⟨90000000, none⟩⟩
    ∧ ¬ ((run_checks_tick defaultThr defaultThr ⟨90000000, none⟩ ethLowInput).alerts.countP
          (fun a => a.symbol == "ETH") = 2) := by
  constructor
  · decide
  · decide

/-- C9 (amended): whenever the fetched ETH price is strictly below the
mutable ETH threshold, the tick sends exactly one ETH alert ("fell
below", rendering the static ETH threshold), then raises `KeyError`,
which aborts the rest of the tick: the vault and gas checks do not run
and the tick's state is left unchanged. -/
theorem spec2_C9 :
    ∀ (mutThr stat : Coin → ℚ) (st : TickState) (inp : TickInput) (p : ℚ),
      inp.prices Coin.ETH = some p → p < mutThr Coin.ETH →
      (run_checks_tick mutThr stat st inp).priceCrashed = true
      ∧ (run_checks_tick mutThr stat st inp).gasRan = false
      ∧ (run_checks_tick mutThr stat st inp).vaultMsgs = []
      ∧ (run_checks_tick mutThr stat st inp).gasMsgs = []
      ∧ (run_checks_tick mutThr stat st inp).state = st
      ∧ (run_checks_tick mutThr stat st inp).alerts.countP
          (fun a => a.symbol == "ETH") = 1
      ∧ Alert.mk "ETH" p AlertDir.fellBelow (stat Coin.ETH)
          ∈ (run_checks_tick mutThr stat st inp).alerts := by
  intro mutThr stat st inp p hp h
  have hpc : price_check mutThr stat inp.prices
      = ⟨(match inp.prices Coin.BTC with
          | some pb =>
            if pb < mutThr Coin.BTC then
              [⟨"BTC", pb, AlertDir.fellBelow, stat Coin.BTC⟩]
            else []
          | none => []) ++ [⟨"ETH", p, AlertDir.fellBelow, stat Coin.ETH⟩], true⟩ := by
    cases hB : inp.prices Coin.BTC with
    | none =>
      simp [price_check, priceItems, coinsOrder, hp, hB, price_check_list,
        price_check_one, h]
    | some pb =>
      by_cases hpb : pb < mutThr Coin.BTC <;>
        simp [price_check, priceItems, coinsOrder, hp, hB, price_check_list,
          price_check_one, h, hpb]
  refine ⟨?_, ?_, ?_, ?_, ?_, ?_, ?_⟩ <;>
    · simp only [run_checks_tick, hpc]
      cases hB : inp.prices Coin.BTC <;> simp [List.countP_cons, List.countP_append]

/-- C10: after an operator raises the mutable BTC threshold above the
process-startup (static) one, a sample `p` with
`static ≤ p < mutable` fires an alert — decided against the mutable
value — whose text renders the static value, although `p` is not below
that static value; symmetrically, after lowering the threshold, a
sample with `mutable ≤ p < static` fires nothing at all even though it
is below the advertised static value. -/
theorem spec2_C10 :
    ∀ (mutThr stat : Coin → ℚ) (p : ℚ),
      (stat Coin.BTC ≤ p → p < mutThr Coin.BTC →
        (price_check mutThr stat
            (fun c => if c = Coin.BTC then some p else none)).alerts
          = [⟨"BTC", p, AlertDir.fellBelow, stat Coin.BTC⟩]
        ∧ ¬ p < stat Coin.BTC)
    ∧ (mutThr Coin.BTC ≤ p → p < stat Coin.BTC →
        (price_check mutThr stat
            (fun c => if c = Coin.BTC then some p else none)).alerts = []) := by
  intro mutThr stat p
  constructor
  · intro h1 h2
    refine ⟨?_, not_lt.2 h1⟩
    simp [price_check, priceItems, coinsOrder, price_check_list, price_check_one, h2]
  · intro h1 h2
    simp [price_check, priceItems, coinsOrder, price_check_list, price_check_one,
      not_lt.2 h1]

/-- Mutable thresholds after an operator raised BTC's to 100000. -/
def raisedThr : Coin → ℚ
  | Coin.BTC => 100000
  | Coin.ETH => 3300
  | Coin.AERO => 1/5

/-- Mutable thresholds after an operator lowered BTC's to 95000. -/
def loweredThr : Coin → ℚ
  | Coin.BTC => 95000
  | Coin.ETH => 3300
  | Coin.AERO => 1/5

/-- Witness for C10: startup threshold 99000; after raising to 100000, a
99500 sample alerts while the text shows 99000 (which 99500 is not
below); after lowering to 95000, a 97000 sample stays silent. -/
theorem spec2_C10_witness :
    ((price_check raisedThr defaultThr
        (fun c => if c = Coin.BTC then some 99500 else none)).alerts
      = [⟨"BTC", 99500, AlertDir.fellBelow, 99000⟩]
      ∧ ¬ (99500 : ℚ) < defaultThr Coin.BTC)
    ∧ (price_check loweredThr defaultThr
        (fun c => if c = Coin.BTC then some 97000 else none)).alerts = [] :=
  ⟨(spec2_C10 raisedThr defaultThr 99500).1 (by decide) (by decide),
   (spec2_C10 loweredThr defaultThr 97000).2 (by decide) (by decide)⟩

/-- Witness for C9 at the concrete sample (ETH fetched at 2900 against
the default thresholds). -/
theorem spec2_C9_witness :
    (run_checks_tick defaultThr defaultThr ⟨90000000, none⟩ ethLowInput).priceCrashed = true
    ∧ (run_checks_tick defaultThr defaultThr ⟨90000000, none⟩ ethLowInput).gasRan = false
    ∧ (run_checks_tick defaultThr defaultThr ⟨90000000, none⟩ ethLowInput).vaultMsgs = []
    ∧ (run_checks_tick defaultThr defaultThr ⟨90000000, none⟩ ethLowInput).gasMsgs = []
    ∧ (run_checks_tick defaultThr defaultThr ⟨90000000, none⟩ ethLowInput).state
        = ⟨90000000, none⟩
    ∧ (run_checks_tick defaultThr defaultThr ⟨90000000, none⟩ ethLowInput).alerts.countP
        (fun a => a.symbol == "ETH") = 1
    ∧ Alert.mk "ETH" 2900 AlertDir.fellBelow (defaultThr Coin.ETH)
        ∈ (run_checks_tick defaultThr defaultThr ⟨90000000, none⟩ ethLowInput).alerts :=
  spec2_C9 defaultThr defaultThr ⟨90000000, none⟩ ethLowInput 2900 rfl (by decide)

/-! ### `get_eth_gas_gwei` (lines 179-206)

Each configured RPC endpoint is tried in list order.  What the code can
observe of one endpoint's behaviour on this call: either the request (or
body parsing) raised an exception, or an HTTP response arrived with a
status code, a body (whose `repr` goes into the "no valid result" error
text) and an optional string `result` field (`none` models a missing or
non-string field). -/

/-- Python `str.strip()`: leading and trailing whitespace removed.
(Defined on the character list so concrete instances evaluate by
`decide`.) -/
def pyStrip (s : String) : String :=
  ⟨((s.data.dropWhile Char.isWhitespace).reverse.dropWhile Char.isWhitespace).reverse⟩

/-- Python `s.startswith("0x")`. -/
def startsWith0x (s : String) : Bool :=
  match s.data with
  | '0' :: 'x' :: _ => true
  | _ => false

/-- Decidable equality for fetch results. -/
instance {α β : Type} [DecidableEq α] [DecidableEq β] : DecidableEq (Except α β) :=
  fun a b =>
    match a, b with
    | Except.ok x, Except.ok y =>
      if h : x = y then isTrue (by rw [h])
      else isFalse (fun hc => h (by cases hc; rfl))
    | Except.error x, Except.error y =>
      if h : x = y then isTrue (by rw [h])
      else isFalse (fun hc => h (by cases hc; rfl))
    | Except.ok _, Except.error _ => isFalse (fun hc => Except.noConfusion hc)
    | Except.error _, Except.ok _ => isFalse (fun hc => Except.noConfusion hc)

/-- Observable response of one RPC endpoint. -/
inductive RpcResp
  | exc (msg : String)
  | http (status : ℕ) (bodyRepr : String) (result : Option String)
deriving DecidableEq, Repr

/-- An entry of `ETH_RPC_URLS` together with its response on this call. -/
structure Endpoint where
  rawUrl : String
  resp : RpcResp

/-- Value of one hexadecimal digit, as accepted by `int(_, 16)`. -/
def hexDigitVal? (c : Char) : Option ℕ :=
  if '0' ≤ c ∧ c ≤ '9' then some (c.toNat - 48)
  else if 'a' ≤ c ∧ c ≤ 'f' then some (c.toNat - 87)
  else if 'A' ≤ c ∧ c ≤ 'F' then some (c.toNat - 55)
  else none

/-- `int(digits, 16)` on the digits after the `0x` prefix: fails on an
empty or non-hexadecimal digit string (raising `ValueError` in Python,
which the surrounding `try` turns into an "exception" entry). -/
def parseHexDigits? (l : List Char) : Option ℕ :=
  if l = [] then none
  else l.foldl (fun acc c => acc.bind fun a => (hexDigitVal? c).map fun d => 16 * a + d)
    (some 0)

/-- One iteration of the endpoint loop (lines 189-203): the parsed gwei
value on success, or the labeled failure reason appended to `errors`. -/
def endpoint_eval (e : Endpoint) : Except String ℚ :=
  match e.resp with
  | RpcResp.exc m => Except.error (pyStrip e.rawUrl ++ " exception: " ++ m)
  | RpcResp.http status bodyRepr result =>
    if status ≠ 200 then Except.error (pyStrip e.rawUrl ++ " status " ++ toString status)
    else
      match result with
      | none => Except.error (pyStrip e.rawUrl ++ " no valid result: " ++ bodyRepr)
      | some s =>
        if s = "" then Except.error (pyStrip e.rawUrl ++ " no valid result: " ++ bodyRepr)
        else if ¬ startsWith0x s then
          Except.error (pyStrip e.rawUrl ++ " no valid result: " ++ bodyRepr)
        else
          match parseHexDigits? (s.data.drop 2) with
          | some wei => Except.ok ((wei : ℚ) / 1000000000)
          | none =>
            Except.error (pyStrip e.rawUrl ++ " exception: invalid literal for int with base 16: " ++ s)

/-- Whether the endpoint loop records this endpoint as a failure. -/
def evalFails (e : Endpoint) : Bool :=
  match endpoint_eval e with
  | Except.error _ => true
  | Except.ok _ => false

/-- The failure reason the loop records for a failing endpoint. -/
def endpointErr (e : Endpoint) : String :=
  match endpoint_eval e with
  | Except.error r => r
  | Except.ok _ => ""

/-- `" ; ".join(errors) or "No result from any RPC"` (line 206). -/
def aggMsg (errs : List String) : String :=
  let m := String.intercalate " ; " errs
  if m = "" then "No result from any RPC" else m

/-- The endpoint loop with its `errors` accumulator: empty (whitespace)
URLs are skipped, the first success returns immediately, and exhaustion
returns the aggregated error. -/
def gas_loop : List Endpoint → List String → Except String ℚ
  | [], errs => Except.error (aggMsg errs)
  | e :: rest, errs =>
    if pyStrip e.rawUrl = "" then gas_loop rest errs
    else
      match endpoint_eval e with
      | Except.ok v => Except.ok v
      | Except.error r => gas_loop rest (errs ++ [r])

/-- `get_eth_gas_gwei` over the configured endpoint list. -/
def get_eth_gas_gwei (es : List Endpoint) : Except String ℚ :=
  gas_loop es []


/-- A string with a nonempty prefix is nonempty. -/
theorem append_ne_empty_left {a : String} (b : String) (h : a ≠ "") : a ++ b ≠ "" := by
  intro hab
  apply h
  have hd : a.data ++ b.data = [] := congrArg String.data hab
  have ha : a.data = [] := (List.append_eq_nil.mp hd).1
  cases a
  simp_all

/-- `String.intercalate.go` only ever extends its accumulator. -/
theorem intercalate_go_ne_empty :
    ∀ (l : List String) (acc s : String), acc ≠ "" → String.intercalate.go acc s l ≠ "" := by
  intro l
  induction l with
  | nil => intro acc s h; simpa [String.intercalate.go] using h
  | cons b bs ih =>
    intro acc s h
    simpa [String.intercalate.go] using
      ih (acc ++ s ++ b) s (append_ne_empty_left _ (append_ne_empty_left _ h))

/-- Joining a list whose head is nonempty gives a nonempty string. -/
theorem intercalate_ne_empty (s a : String) (l : List String) (h : a ≠ "") :
    String.intercalate s (a :: l) ≠ "" := by
  simpa [String.intercalate] using intercalate_go_ne_empty l a s h

/-- Every failure reason recorded by the endpoint loop starts with the
stripped URL of the endpoint that produced it. -/
theorem endpoint_eval_error_shape (e : Endpoint) (r : String)
    (he : endpoint_eval e = Except.error r) : ∃ t, r = pyStrip e.rawUrl ++ t := by
  unfold endpoint_eval at he
  repeat' split at he
  all_goals simp at he
  all_goals exact ⟨_, by rw [← he, String.append_assoc]⟩

/-- A failing endpoint with a nonblank URL records a nonempty reason. -/
theorem endpointErr_ne_empty (e : Endpoint) (h : pyStrip e.rawUrl ≠ "")
    (hf : evalFails e = true) : endpointErr e ≠ "" := by
  unfold endpointErr
  cases he : endpoint_eval e with
  | ok v => unfold evalFails at hf; rw [he] at hf; simp at hf
  | error r =>
    obtain ⟨t, rfl⟩ := endpoint_eval_error_shape e r he
    simpa using append_ne_empty_left t h

/-- When every endpoint of the list fails (with a nonblank URL), the
loop exhausts the list and aggregates the accumulated reasons in
order. -/
theorem gas_loop_all_fail :
    ∀ (es : List Endpoint) (errs : List String),
      (∀ e ∈ es, pyStrip e.rawUrl ≠ "" ∧ evalFails e = true) →
      gas_loop es errs = Except.error (aggMsg (errs ++ es.map endpointErr)) := by
  intro es
  induction es with
  | nil => intro errs _; simp [gas_loop]
  | cons e rest ih =>
    intro errs h
    have he := h e (List.mem_cons_self e rest)
    have hrest : ∀ e' ∈ rest, pyStrip e'.rawUrl ≠ "" ∧ evalFails e' = true :=
      fun e' he' => h e' (List.mem_cons_of_mem e he')
    cases heval : endpoint_eval e with
    | ok v => unfold evalFails at he; rw [heval] at he; simp at he
    | error r =>
      have herr : endpointErr e = r := by simp [endpointErr, heval]
      simp only [gas_loop, he.1, if_false, heval, ih (errs ++ [r]) hrest,
        List.map_cons, herr]
      simp [List.append_assoc]

/-- The loop returns the first success and never looks past it. -/
theorem gas_loop_success :
    ∀ (pre : List Endpoint) (errs : List String) (e : Endpoint) (post : List Endpoint) (v : ℚ),
      (∀ e' ∈ pre, pyStrip e'.rawUrl = "" ∨ evalFails e' = true) →
      pyStrip e.rawUrl ≠ "" → endpoint_eval e = Except.ok v →
      gas_loop (pre ++ e :: post) errs = Except.ok v := by
  intro pre
  induction pre with
  | nil =>
    intro errs e post v _ hne hok
    simp [gas_loop, hne, hok]
  | cons e' rest ih =>
    intro errs e post v h hne hok
    have he' := h e' (List.mem_cons_self e' rest)
    have hrest : ∀ x ∈ rest, pyStrip x.rawUrl = "" ∨ evalFails x = true :=
      fun x hx => h x (List.mem_cons_of_mem e' hx)
    rcases he' with hblank | hfail
    · simp only [List.cons_append, gas_loop, hblank, if_true]
      exact ih errs e post v hrest hne hok
    · cases heval : endpoint_eval e' with
      | ok w => unfold evalFails at hfail; rw [heval] at hfail; simp at hfail
      | error r =>
        by_cases hb : pyStrip e'.rawUrl = ""
        · simp only [List.cons_append, gas_loop, hb, if_true]
          exact ih errs e post v hrest hne hok
        · simp only [List.cons_append, gas_loop, hb, if_false, heval]
          exact ih (errs ++ [r]) e post v hrest hne hok

/-- C4: the RPC fallback tries endpoints in order and (a) returns the
first successful endpoint's value without consulting anything after it;
(b) parses a 200-status valid hexadecimal `result` as a base-16 wei
integer divided by 1e9 (gwei); (c) when every endpoint fails, returns an
error joining every endpoint's failure reason, in endpoint order, with
the fixed `" ; "` delimiter. -/
theorem spec2_C4 :
    (∀ (pre : List Endpoint) (e : Endpoint) (post : List Endpoint) (v : ℚ),
        (∀ e' ∈ pre, pyStrip e'.rawUrl = "" ∨ evalFails e' = true) →
        pyStrip e.rawUrl ≠ "" → endpoint_eval e = Except.ok v →
        get_eth_gas_gwei (pre ++ e :: post) = Except.ok v)
    ∧ (∀ (u b s : String) (w : ℕ),
        startsWith0x s = true → parseHexDigits? (s.data.drop 2) = some w →
        endpoint_eval ⟨u, RpcResp.http 200 b (some s)⟩
          = Except.ok ((w : ℚ) / 1000000000))
    ∧ (∀ es : List Endpoint,
        es ≠ [] →
        (∀ e ∈ es, pyStrip e.rawUrl ≠ "" ∧ evalFails e = true) →
        get_eth_gas_gwei es
          = Except.error (String.intercalate " ; " (es.map endpointErr))) := by
  refine ⟨?_, ?_, ?_⟩
  · intro pre e post v h hne hok
    exact gas_loop_success pre [] e post v h hne hok
  · intro u b s w hpre hparse
    have hs : s ≠ "" := by
      intro hs0
      rw [hs0] at hpre
      exact absurd hpre (by decide)
    simp [endpoint_eval, hs, hpre, hparse]
  · intro es hne h
    cases es with
    | nil => exact absurd rfl hne
    | cons e rest =>
      have hall := gas_loop_all_fail (e :: rest) [] h
      rw [get_eth_gas_gwei, hall]
      have he := h e (List.mem_cons_self e rest)
      have hner : endpointErr e ≠ "" := endpointErr_ne_empty e he.1 he.2
      simp only [List.nil_append, List.map_cons, aggMsg]
      rw [if_neg (intercalate_ne_empty _ _ _ hner)]

/-- A first endpoint whose request raises (timeout). -/
def epFail1 : Endpoint := ⟨"https://a.example", RpcResp.exc "timeout"⟩

/-- A second endpoint answering with HTTP 500. -/
def epFail2 : Endpoint := ⟨"https://b.example", RpcResp.http 500 "server error" none⟩

/-- A third endpoint answering 200 with `result = "0x3b9aca00"`
(1 000 000 000 wei, i.e. exactly 1 gwei). -/
def epOk : Endpoint := ⟨"https://c.example", RpcResp.http 200 "result body" (some "0x3b9aca00")⟩

/-- Witness for C4: two failures then a success yield `1` gwei; two
failures alone yield the joined two-reason error. -/
theorem spec2_C4_witness :
    get_eth_gas_gwei [epFail1, epFail2, epOk] = Except.ok 1
    ∧ get_eth_gas_gwei [epFail1, epFail2]
        = Except.error (String.intercalate " ; " ([epFail1, epFail2].map endpointErr)) := by
  constructor
  · have hok : endpoint_eval epOk = Except.ok 1 := by
      have h := spec2_C4.2.1 "https://c.example" "result body" "0x3b9aca00" 1000000000
        (by decide) (by decide)
      rw [show epOk = ⟨"https://c.example",
        RpcResp.http 200 "result body" (some "0x3b9aca00")⟩ from rfl, h]
      norm_num
    have h := spec2_C4.1 [epFail1, epFail2] epOk [] 1 (by decide) (by decide) hok
    simpa using h
  · exact spec2_C4.2.2 [epFail1, epFail2] (List.cons_ne_nil _ _) (by decide)

/-! ### Operator threshold overrides: `update_env_value` (lines 60-77),
`cmd_set` (lines 302-341) and the startup read of `THRESHOLDS`
(lines 30-34 after `load_dotenv("config.env")`).

Python string primitives are modelled on the character list so concrete
instances evaluate inside `decide`. -/

/-- Python `str.upper()` (ASCII arguments here). -/
def pyUpper (s : String) : String := ⟨s.data.map Char.toUpper⟩

/-- Python `str.lower()` (ASCII arguments here). -/
def pyLower (s : String) : String := ⟨s.data.map Char.toLower⟩

/-- Python `s.replace(",", ".")` (single-character pattern). -/
def replaceCommaDot (s : String) : String :=
  ⟨s.data.map fun c => if c = ',' then '.' else c⟩

/-- A CPython `float` object as far as this program distinguishes them.
ℚ stands in for the finite doubles; the program only compares and stores
these values, so binary rounding is not load-bearing.  (`float(s)` also
overflows huge decimal exponents to infinity, which this model maps to a
huge finite rational instead; no claim exercises that corner.) -/
inductive PyFloat
  | finite (q : ℚ)
  | inf
  | negInf
  | nan
deriving DecidableEq, Repr

/-- Value of a decimal digit string (most significant first). -/
def natOfDigits (l : List Char) : ℕ := l.foldl (fun a c => 10 * a + (c.toNat - 48)) 0

/-- Exponent suffix digits of a float literal, applied to the mantissa. -/
def expDigits (b : ℚ) (neg : Bool) (ds : List Char) : Option ℚ :=
  if ds = [] ∨ ¬ ds.all Char.isDigit then none
  else some (if neg then b / 10 ^ natOfDigits ds else b * 10 ^ natOfDigits ds)

/-- Exponent part after the `e`, with optional sign. -/
def applyExp (b : ℚ) : List Char → Option ℚ
  | '+' :: ds => expDigits b false ds
  | '-' :: ds => expDigits b true ds
  | ds => expDigits b false ds

/-- Magnitude of a float literal (already lowercased, sign stripped):
`digits`, `digits.digits`, `.digits`, `digits.`, each with an optional
`e[sign]digits` exponent. -/
def parseFloatMag (l : List Char) : Option ℚ :=
  let ip := l.takeWhile Char.isDigit
  match l.dropWhile Char.isDigit with
  | [] => if ip = [] then none else some (natOfDigits ip)
  | '.' :: rest' =>
    let fp := rest'.takeWhile Char.isDigit
    if ip = [] ∧ fp = [] then none
    else
      let base : ℚ := natOfDigits ip + (natOfDigits fp : ℚ) / 10 ^ fp.length
      match rest'.dropWhile Char.isDigit with
      | [] => some base
      | 'e' :: ex => applyExp base ex
      | _ => none
  | 'e' :: ex => if ip = [] then none else applyExp (natOfDigits ip) ex
  | _ => none

/-- Sign-stripped body of `float(s)`: the special spellings `inf`,
`infinity` and `nan`, else a decimal magnitude. -/
def pythonFloatCore (neg : Bool) (u : List Char) : Option PyFloat :=
  if u = "inf".data ∨ u = "infinity".data then
    some (if neg then PyFloat.negInf else PyFloat.inf)
  else if u = "nan".data then some PyFloat.nan
  else (parseFloatMag u).map fun q => PyFloat.finite (if neg then -q else q)

/-- CPython `float(s)`: strip whitespace, case-fold, optional sign, then
the body.  `none` models the `ValueError` CPython raises otherwise. -/
def pythonFloat? (s : String) : Option PyFloat :=
  match (pyLower (pyStrip s)).data with
  | '-' :: u => pythonFloatCore true u
  | '+' :: u => pythonFloatCore false u
  | u => pythonFloatCore false u

/-- One line of the `KEY=VALUE` store as python-dotenv reads it back at
startup: comment lines are skipped, the key is everything before the
first `=`, the value everything after it.  (The real parser also trims
whitespace and quotes; the round-trip theorems restrict attention to
well-formed stores where that is immaterial.) -/
def parseEnvChars : List Char → Option (String × String)
  | [] => none
  | c :: cs =>
    if c = '#' then none
    else
      match (c :: cs).dropWhile (· ≠ '=') with
      | [] => none
      | _ :: rest => some (⟨(c :: cs).takeWhile (· ≠ '=')⟩, ⟨rest⟩)

/-- One stored line, parsed from its characters. -/
def parseEnvLine (l : String) : Option (String × String) :=
  parseEnvChars l.data

/-- `os.getenv` after `load_dotenv` of the stored lines: the last
assignment of the key wins. -/
def getenvFile (lines : List String) (key : String) : Option String :=
  (((lines.filterMap parseEnvLine).filter fun kv => kv.1 = key).getLast?).map
    fun kv => kv.2

/-- Python `s.startswith(p)` on character lists. -/
def pyStartsWith : List Char → List Char → Bool
  | _, [] => true
  | [], _ :: _ => false
  | c :: cs, p :: ps => c = p && pyStartsWith cs ps

/-- `line.strip().startswith(f"{key}=")` (line 67). -/
def matchesKey (key l : String) : Bool :=
  pyStartsWith (pyStrip l).data (key ++ "=").data

/-- `update_env_value` (lines 60-77): every matching line is rewritten
to `key=value`; if none matched, the assignment is appended.  Lines are
modelled without their trailing newline. -/
def update_env_value (lines : List String) (key value : String) : List String :=
  let newline := key ++ "=" ++ value
  let replaced := lines.map fun l => if matchesKey key l then newline else l
  if lines.any (matchesKey key) then replaced else replaced ++ [newline]

/-- `symbol not in self.thresholds` (line 318): the mutable threshold
dict always holds exactly the three coins. -/
def coinOfString (s : String) : Option Coin :=
  if s = "BTC" then some Coin.BTC
  else if s = "ETH" then some Coin.ETH
  else if s = "AERO" then some Coin.AERO
  else none

/-- `f"{symbol}_CRITICAL_PRICE"` (line 333). -/
def coinEnvKey (c : Coin) : String := coinName c ++ "_CRITICAL_PRICE"

/-- The reply `cmd_set` sends back. -/
inductive SetReply
  | usage
  | unknownCoin (symbol : String)
  | parseError
  | updated (oldVal newVal : PyFloat)
deriving DecidableEq, Repr

/-- Observable outcome of `cmd_set`: the reply, the mutable thresholds
afterwards, and the stored `config.env` lines afterwards. -/
structure SetOutcome where
  reply : SetReply
  thresholds : Coin → PyFloat
  envFile : List String

/-- `cmd_set` (lines 302-341) on the supplied command arguments. -/
def cmd_set (thr : Coin → PyFloat) (env : List String) (args : List String) : SetOutcome :=
  match args with
  | [a0, a1] =>
    let symbol := pyUpper a0
    let valueStr := replaceCommaDot a1
    match coinOfString symbol with
    | none => ⟨SetReply.unknownCoin symbol, thr, env⟩
    | some c =>
      match pythonFloat? valueStr with
      | none => ⟨SetReply.parseError, thr, env⟩
      | some v =>
        ⟨SetReply.updated (thr c) v, Function.update thr c v,
         update_env_value env (coinEnvKey c) valueStr⟩
  | _ => ⟨SetReply.usage, thr, env⟩

/-- The `THRESHOLDS` entry computed at (re)start:
`float(os.getenv(f"{sym}_CRITICAL_PRICE", default))` after loading the
stored lines; `none` models the `ValueError` that would abort startup. -/
def read_threshold_startup (lines : List String) (c : Coin) : Option PyFloat :=
  match getenvFile lines (coinEnvKey c) with
  | some s => pythonFloat? s
  | none => some (PyFloat.finite (defaultThr c))

/-- A stored line is "safe" for `key` when, if dotenv would read it as
an assignment to `key`, `update_env_value` also recognises it (no
whitespace-around-`=` tricks). -/
def lineSafeFor (key l : String) : Bool :=
  match parseEnvLine l with
  | some kv => kv.1 != key || matchesKey key l
  | none => true

/-- Key strings for which `key=value` lines parse back exactly:
nonempty, not a comment starter, no `=` inside. -/
def envKeyOK (key : String) : Bool :=
  match key.data with
  | [] => false
  | c :: _ => c ≠ '#' && key.data.all fun ch => ch ≠ '='


/-- `takeWhile (≠ '=')` stops exactly at the first `=`. -/
theorem takeWhile_neq_append (ks vs : List Char) (hk : ∀ ch ∈ ks, ch ≠ '=') :
    (ks ++ '=' :: vs).takeWhile (· ≠ '=') = ks := by
  induction ks with
  | nil => simp [List.takeWhile]
  | cons a as ih =>
    have ha : a ≠ '=' := hk a (by simp)
    simpa [List.takeWhile_cons, ha] using ih fun ch hch => hk ch (by simp [hch])

/-- `dropWhile (≠ '=')` lands exactly on the first `=`. -/
theorem dropWhile_neq_append (ks vs : List Char) (hk : ∀ ch ∈ ks, ch ≠ '=') :
    (ks ++ '=' :: vs).dropWhile (· ≠ '=') = '=' :: vs := by
  induction ks with
  | nil => simp [List.dropWhile]
  | cons a as ih =>
    have ha : a ≠ '=' := hk a (by simp)
    simpa [List.dropWhile_cons, ha] using ih fun ch hch => hk ch (by simp [hch])

/-- The cons-shaped instance of `takeWhile_neq_append` (the syntactic
form produced inside `parseEnvChars`). -/
theorem takeWhile_neq_cons_append (c : Char) (cs vs : List Char)
    (hk : ∀ ch ∈ c :: cs, ch ≠ '=') :
    (c :: (cs ++ '=' :: vs)).takeWhile (· ≠ '=') = c :: cs :=
  takeWhile_neq_append (c :: cs) vs hk

/-- The cons-shaped instance of `dropWhile_neq_append`. -/
theorem dropWhile_neq_cons_append (c : Char) (cs vs : List Char)
    (hk : ∀ ch ∈ c :: cs, ch ≠ '=') :
    (c :: (cs ++ '=' :: vs)).dropWhile (· ≠ '=') = '=' :: vs :=
  dropWhile_neq_append (c :: cs) vs hk

/-- A written `key=value` line parses back to exactly that pair. -/
theorem parseEnvLine_keyval (key v : String) (hk : envKeyOK key = true) :
    parseEnvLine (key ++ "=" ++ v) = some (key, v) := by
  obtain ⟨kd⟩ := key
  obtain ⟨vd⟩ := v
  unfold envKeyOK at hk
  cases kd with
  | nil => simp at hk
  | cons c cs =>
    simp only [Bool.and_eq_true, decide_eq_true_eq, List.all_eq_true] at hk
    obtain ⟨hc, hall⟩ := hk
    have hall' : ∀ ch ∈ c :: cs, ch ≠ '=' := by
      intro ch hch
      simpa using hall ch hch
    unfold parseEnvLine
    have hdata : ((⟨c :: cs⟩ ++ "=" ++ ⟨vd⟩ : String)).data = c :: (cs ++ '=' :: vd) := by
      show ((c :: cs) ++ ['=']) ++ vd = _
      simp
    rw [hdata]
    simp only [parseEnvChars, if_neg hc, dropWhile_neq_cons_append c cs vd hall',
      takeWhile_neq_cons_append c cs vd hall']

/-- The last element of a nonempty constant list. -/
theorem getLast?_replicate_pos {α : Type} (n : ℕ) (a : α) (h : n ≠ 0) :
    (List.replicate n a).getLast? = some a := by
  cases n with
  | zero => exact absurd rfl h
  | succ m => rw [List.replicate_succ', List.getLast?_concat]

/-- After `update_env_value`, the store's assignments to `key` are
exactly one copy of `key=value` per matching line, in place. -/
theorem entriesFor_replaced (key v : String) (hk : envKeyOK key = true) :
    ∀ L : List String, (∀ l ∈ L, lineSafeFor key l = true) →
      ((L.map fun l => if matchesKey key l then key ++ "=" ++ v else l).filterMap
          parseEnvLine).filter (fun kv => kv.1 = key)
        = List.replicate (L.countP (matchesKey key)) (key, v) := by
  intro L
  induction L with
  | nil => intro _; rfl
  | cons l L ih =>
    intro hsafe
    have hl := hsafe l (by simp)
    have hrest := ih fun x hx => hsafe x (List.mem_cons_of_mem l hx)
    by_cases hm : matchesKey key l = true
    · rw [List.map_cons, if_pos hm,
        List.filterMap_cons_some (parseEnvLine_keyval key v hk),
        List.filter_cons, if_pos (by simp), hrest, List.countP_cons]
      simp [hm, List.replicate_succ]
    · cases hp : parseEnvLine l with
      | none =>
        rw [List.map_cons, if_neg hm, List.filterMap_cons_none hp, hrest,
          List.countP_cons]
        simp [hm]
      | some kv =>
        have hne : ¬ kv.1 = key := by
          unfold lineSafeFor at hl
          rw [hp] at hl
          simpa [hm] using hl
        rw [List.map_cons, if_neg hm, List.filterMap_cons_some hp,
          List.filter_cons, if_neg (by simpa using hne), hrest, List.countP_cons]
        simp [hm]

/-- Round trip through the store: after `update_env_value`, reading the
key back dotenv-style yields the written value. -/
theorem getenv_update_env (key v : String) (lines : List String)
    (hk : envKeyOK key = true)
    (hsafe : ∀ l ∈ lines, lineSafeFor key l = true) :
    getenvFile (update_env_value lines key v) key = some v := by
  unfold update_env_value getenvFile
  by_cases hany : lines.any (matchesKey key) = true
  · simp only [hany, if_true]
    rw [entriesFor_replaced key v hk lines hsafe]
    have hpos : lines.countP (matchesKey key) ≠ 0 := by
      obtain ⟨x, hx, hpx⟩ := List.any_eq_true.mp hany
      intro h0
      exact absurd hpx (by simpa using (List.countP_eq_zero.mp h0) x hx)
    rw [getLast?_replicate_pos _ _ hpos]
    rfl
  · rw [Bool.not_eq_true] at hany
    simp only [hany, Bool.false_eq_true, if_false]
    rw [List.filterMap_append, List.filter_append]
    have hnl : (List.filterMap parseEnvLine [key ++ "=" ++ v]).filter
        (fun kv => kv.1 = key) = [(key, v)] := by
      simp [List.filterMap_cons, parseEnvLine_keyval key v hk]
    rw [hnl, List.getLast?_concat]
    rfl

/-- The mutable thresholds at process start, before any override. -/
def pyDefaultThr : Coin → PyFloat := fun c => PyFloat.finite (defaultThr c)

/-- C6: a `set` of a known signal with a float-parsing value rewrites or
appends the `KEY=VALUE` line, and after a restart the startup read of
that signal's threshold returns exactly the value that was set (the
in-process mutable threshold agrees).  The store hypothesis rules out
lines that dotenv would read as the key but `update_env_value` would not
rewrite (whitespace around `=`). -/
theorem spec2_C6 :
    ∀ (thr : Coin → PyFloat) (lines : List String) (c : Coin) (vstr : String) (x : ℚ),
      (∀ l ∈ lines, lineSafeFor (coinEnvKey c) l = true) →
      pythonFloat? (replaceCommaDot vstr) = some (PyFloat.finite x) →
      read_threshold_startup (cmd_set thr lines [coinName c, vstr]).envFile c
          = some (PyFloat.finite x)
      ∧ (cmd_set thr lines [coinName c, vstr]).thresholds c = PyFloat.finite x := by
  intro thr lines c vstr x hsafe hparse
  have hname : coinOfString (pyUpper (coinName c)) = some c := by
    cases c <;> rfl
  unfold cmd_set
  simp only [hname, hparse]
  constructor
  · unfold read_threshold_startup
    rw [getenv_update_env (coinEnvKey c) (replaceCommaDot vstr) lines
      (by cases c <;> decide) hsafe]
    exact hparse
  · simp [Function.update_same]

/-- Witness for C6: `set BTC 95000` on an empty store, then restart. -/
theorem spec2_C6_witness :
    read_threshold_startup (cmd_set pyDefaultThr [] ["BTC", "95000"]).envFile Coin.BTC
        = some (PyFloat.finite 95000)
    ∧ (cmd_set pyDefaultThr [] ["BTC", "95000"]).thresholds Coin.BTC
        = PyFloat.finite 95000 :=
  spec2_C6 pyDefaultThr [] Coin.BTC "95000" 95000 (by simp) (by decide)

/-- Whether `cmd_set` accepted the update. -/
def setAccepted (o : SetOutcome) : Bool :=
  match o.reply with
  | SetReply.updated _ _ => true
  | _ => false

/-- Counterexample to C7 as stated: `float("inf")` succeeds in CPython,
so `set BTC inf` is accepted — the reply reports old and new value, and
the mutable BTC threshold becomes `inf` — even though `"inf"` does not
parse as a finite number. -/
theorem spec2_C7_cex :
    (cmd_set pyDefaultThr [] ["BTC", "inf"]).reply
        = SetReply.updated (PyFloat.finite 99000) PyFloat.inf
    ∧ (cmd_set pyDefaultThr [] ["BTC", "inf"]).thresholds Coin.BTC = PyFloat.inf
    ∧ ∀ q : ℚ, PyFloat.inf ≠ PyFloat.finite q := by
  refine ⟨by decide, by decide, fun q h => PyFloat.noConfusion h⟩

/-- C7 (amended): `cmd_set` accepts an update exactly when it gets two
arguments, the upper-cased first names a known signal, and the second
(commas turned to dots) parses as a CPython float — finite or not
(`inf`, `infinity`, `nan` included); on acceptance it stores the parsed
value, persists the value string under the signal's key and replies
with old and new value; on rejection it leaves thresholds and store
untouched. -/
theorem spec2_C7 :
    ∀ (thr : Coin → PyFloat) (env : List String) (args : List String),
      (setAccepted (cmd_set thr env args) = true
        ↔ ∃ (a0 a1 : String) (c : Coin) (v : PyFloat),
            args = [a0, a1] ∧ coinOfString (pyUpper a0) = some c
            ∧ pythonFloat? (replaceCommaDot a1) = some v)
      ∧ (setAccepted (cmd_set thr env args) = false →
          (cmd_set thr env args).thresholds = thr
          ∧ (cmd_set thr env args).envFile = env)
      ∧ (∀ (a0 a1 : String) (c : Coin) (v : PyFloat),
          args = [a0, a1] → coinOfString (pyUpper a0) = some c →
          pythonFloat? (replaceCommaDot a1) = some v →
          (cmd_set thr env args).reply = SetReply.updated (thr c) v
          ∧ (cmd_set thr env args).thresholds c = v
          ∧ (cmd_set thr env args).envFile
              = update_env_value env (coinEnvKey c) (replaceCommaDot a1)) := by
  intro thr env args
  match args with
  | [] => exact ⟨by simp [cmd_set, setAccepted], fun _ => ⟨rfl, rfl⟩, by simp⟩
  | [a0] => exact ⟨by simp [cmd_set, setAccepted], fun _ => ⟨rfl, rfl⟩, by simp⟩
  | a0 :: a1 :: a2 :: rest =>
    exact ⟨by simp [cmd_set, setAccepted], fun _ => ⟨rfl, rfl⟩, by simp⟩
  | [a0, a1] =>
    refine ⟨?_, ?_, ?_⟩
    · cases hc : coinOfString (pyUpper a0) with
      | none => simp [cmd_set, setAccepted, hc]
      | some c =>
        cases hv : pythonFloat? (replaceCommaDot a1) with
        | none => simp [cmd_set, setAccepted, hc, hv]
        | some v =>
          simp only [cmd_set, hc, hv, setAccepted]
          constructor
          · intro _
            exact ⟨a0, a1, c, v, rfl, hc, hv⟩
          · intro _
            trivial
    · intro hrej
      cases hc : coinOfString (pyUpper a0) with
      | none => simp [cmd_set, hc]
      | some c =>
        cases hv : pythonFloat? (replaceCommaDot a1) with
        | none => simp [cmd_set, hc, hv]
        | some v =>
          exfalso
          simp [cmd_set, setAccepted, hc, hv] at hrej
    · intro b0 b1 c v heq hc hv
      obtain ⟨rfl, rfl⟩ : b0 = a0 ∧ b1 = a1 := by
        injection heq with h1 h2
        injection h2 with h2 _
        exact ⟨h1.symm, h2.symm⟩
      refine ⟨?_, ?_, ?_⟩ <;> simp [cmd_set, hc, hv, Function.update_same]

/-- Witness for C7: a rejected garbage value leaves state untouched; an
accepted plain numeric value is stored and persisted. -/
theorem spec2_C7_witness :
    ((cmd_set pyDefaultThr [] ["BTC", "droid"]).thresholds = pyDefaultThr
      ∧ (cmd_set pyDefaultThr [] ["BTC", "droid"]).envFile = [])
    ∧ ((cmd_set pyDefaultThr [] ["BTC", "97000"]).reply
          = SetReply.updated (pyDefaultThr Coin.BTC) (PyFloat.finite 97000)
      ∧ (cmd_set pyDefaultThr [] ["BTC", "97000"]).thresholds Coin.BTC
          = PyFloat.finite 97000
      ∧ (cmd_set pyDefaultThr [] ["BTC", "97000"]).envFile
          = update_env_value [] (coinEnvKey Coin.BTC) (replaceCommaDot "97000")) :=
  ⟨(spec2_C7 pyDefaultThr [] ["BTC", "droid"]).2.1 (by decide),
   (spec2_C7 pyDefaultThr [] ["BTC", "97000"]).2.2 "BTC" "97000" Coin.BTC
     (PyFloat.finite 97000) rfl (by decide) (by decide)⟩

/-! ### Notification text formatting (C8)

The messages interpolate numbers with three Python format specs:
`f"{x:,.2f}"` for prices (line 271), `f"{x:.2f} gwei"` for gas values
(lines 133, 225-257, 294), and plain `f"{x:,}"` for the three vault TVL
figures (lines 170-172) — the latter is general formatting with
grouping, NOT fixed to two decimals.  Digits, grouping and rounding are
modelled on character lists and integer arithmetic so concrete values
evaluate under `decide`; the only deviation from CPython is tie
rounding (`:,.2f` rounds the underlying binary double half-even), which
no claim exercises. -/

/-- The character of one decimal digit. -/
def digitChar (d : ℕ) : Char :=
  match d with
  | 0 => '0' | 1 => '1' | 2 => '2' | 3 => '3' | 4 => '4'
  | 5 => '5' | 6 => '6' | 7 => '7' | 8 => '8' | _ => '9'

/-- Decimal digits, most significant first, with enough fuel to cover
the number (structural recursion, so concrete instances evaluate). -/
def natDigitsAux : ℕ → ℕ → List Char
  | 0, _ => []
  | fuel + 1, n =>
    if n < 10 then [digitChar n] else natDigitsAux fuel (n / 10) ++ [digitChar (n % 10)]

/-- Decimal digits of a natural number, most significant first. -/
def natDigits (n : ℕ) : List Char := natDigitsAux (n + 1) n

/-- Exactly `d` digits of `n`, zero-padded, most significant first. -/
def padDigits (n : ℕ) : ℕ → List Char
  | 0 => []
  | d + 1 => padDigits (n / 10) d ++ [digitChar (n % 10)]

/-- Thousands grouping on a digit list given least significant first:
emit three digits and a comma, repeat. -/
def groupRev : List Char → List Char
  | a :: b :: c :: d :: rest => a :: b :: c :: ',' :: groupRev (d :: rest)
  | l => l

/-- Thousands grouping of a digit list given most significant first. -/
def groupThousands (l : List Char) : List Char := (groupRev l.reverse).reverse

/-- Checker for a grouped digit list, least significant first: groups of
three digits separated by commas, last group of one to three digits. -/
def groupedRevOk : List Char → Bool
  | a :: b :: c :: ',' :: rest =>
    a.isDigit && b.isDigit && c.isDigit && groupedRevOk rest
  | l => !l.isEmpty && decide (l.length ≤ 3) && l.all Char.isDigit

/-- The integer number of cents `f"{q:,.2f}"` prints:
`floor(q * 100 + 1/2)` computed on numerator and denominator. -/
def pyRound2 (q : ℚ) : ℤ := Int.fdiv (200 * q.num + q.den) (2 * q.den)

/-- `f"{q:,.2f}"`: sign, grouped integer part, exactly two decimals. -/
def fmtCommaFixed2 (q : ℚ) : String :=
  let c := pyRound2 q
  let n := c.natAbs
  (if c < 0 then "-" else "") ++ ⟨groupThousands (natDigits (n / 100))⟩ ++ "."
    ++ ⟨padDigits (n % 100) 2⟩

/-- `f"{q:.2f}"`: sign, plain integer part, exactly two decimals. -/
def fmtFixed2 (q : ℚ) : String :=
  let c := pyRound2 q
  let n := c.natAbs
  (if c < 0 then "-" else "") ++ ⟨natDigits (n / 100)⟩ ++ "." ++ ⟨padDigits (n % 100) 2⟩

/-- A JSON number as Python sees it: `int` or `float`.  The vault API's
`max_tvl` values and the stored previous value flow through `f"{x:,}"`,
which renders the two kinds differently. -/
inductive PyNum
  | int (n : ℤ)
  | float (q : ℚ)
deriving DecidableEq, Repr

/-- Python subtraction on these numbers (`max_tvl - prev`, line 168). -/
def pySub : PyNum → PyNum → PyNum
  | PyNum.int a, PyNum.int b => PyNum.int (a - b)
  | PyNum.int a, PyNum.float b => PyNum.float (a - b)
  | PyNum.float a, PyNum.int b => PyNum.float (a - b)
  | PyNum.float a, PyNum.float b => PyNum.float (a - b)

/-- Number of decimals `repr`/`format` shows for a float with a short
terminating decimal expansion: the least `d` with `q·10^d` integral
(capped at 17, the double shortest-repr bound). -/
def decimalsNeeded (q : ℚ) : ℕ :=
  (((List.range 18).find? fun d => 10 ^ d % q.den = 0).getD 17)

/-- `q · 10^d` as an integer (exact when the denominator divides
`10^d`). -/
def scaleByPow10 (q : ℚ) (d : ℕ) : ℤ := q.num * ((10 ^ d : ℕ) / q.den)

/-- `f"{x:,}"`: ints get sign and grouped digits; floats additionally a
decimal point and their shortest decimal expansion (at least one
digit, so an integral float shows a trailing `.0`). -/
def fmtComma : PyNum → String
  | PyNum.int n =>
    (if n < 0 then "-" else "") ++ ⟨groupThousands (natDigits n.natAbs)⟩
  | PyNum.float q =>
    let d := Nat.max 1 (decimalsNeeded q)
    let m := scaleByPow10 q d
    let n := m.natAbs
    (if m < 0 then "-" else "") ++ ⟨groupThousands (natDigits (n / 10 ^ d))⟩ ++ "."
      ++ ⟨padDigits (n % 10 ^ d) d⟩

/-- The `send_alert` message text (line 271). -/
def send_alert_msg (symbol : String) (price : ℚ) (condition : String) : String :=
  "🚨 " ++ (symbol ++ (" Price Alert! 🚨\nУсловие: "
    ++ (condition ++ ("\nТекущая цена: $" ++ fmtCommaFixed2 price))))

/-- The Gigavault increase message (lines 169-172). -/
def vault_msg_text (prev newv : PyNum) : String :=
  "📢 Gigavault max TVL увеличен!\nБыло: " ++ (fmtComma prev ++ ("\nСтало: "
    ++ (fmtComma newv ++ ("\nДоступное место появилось: " ++ fmtComma (pySub newv prev)))))

/-- First line of each gas notification (lines 235, 245, 255). -/
def gas_msg_head : GasMsgKind → String
  | GasMsgKind.alreadyBelow => "⛽️ Газ в сети Ethereum уже ниже порога!\n"
  | GasMsgKind.droppedBelow => "⛽️ Газ в сети Ethereum опустился ниже порога!\n"
  | GasMsgKind.roseAbove => "✅ Газ в сети Ethereum поднялся выше порога.\n"

/-- A gas notification's full text (lines 234-258). -/
def gas_msg_text (k : GasMsgKind) (gas critical : ℚ) : String :=
  gas_msg_head k ++ ("Текущая цена: " ++ (fmtFixed2 gas
    ++ (" gwei" ++ ("\nПороговое значение: " ++ (fmtFixed2 critical ++ " gwei")))))

/-- Whether a rendered number ends in a decimal point followed by
exactly two digits. -/
def twoDecString (s : String) : Bool :=
  match s.data.reverse with
  | b :: a :: '.' :: _ => a.isDigit && b.isDigit
  | _ => false

/-- Digit characters are digits. -/
theorem digitChar_isDigit (d : ℕ) : (digitChar d).isDigit = true := by
  unfold digitChar
  split <;> rfl

/-- With enough fuel, the digit expansion is nonempty and all digits. -/
theorem natDigitsAux_spec :
    ∀ (fuel n : ℕ), n < fuel →
      natDigitsAux fuel n ≠ [] ∧ ∀ ch ∈ natDigitsAux fuel n, ch.isDigit = true := by
  intro fuel
  induction fuel with
  | zero => intro n hn; omega
  | succ fuel ih =>
    intro n hn
    by_cases h : n < 10
    · refine ⟨by simp [natDigitsAux, h], ?_⟩
      intro ch hch
      simp [natDigitsAux, h] at hch
      subst hch
      exact digitChar_isDigit n
    · have hlt : n / 10 < fuel := by
        have := Nat.div_lt_self (show 0 < n by omega) (show 1 < 10 by norm_num)
        omega
      obtain ⟨hne, hdig⟩ := ih (n / 10) hlt
      constructor
      · simp [natDigitsAux, h]
      · intro ch hch
        simp only [natDigitsAux, h, if_false, List.mem_append] at hch
        rcases hch with hch | hch
        · exact hdig ch hch
        · simp at hch
          subst hch
          exact digitChar_isDigit _
    
/-- `natDigits` is nonempty. -/
theorem natDigits_ne_nil (n : ℕ) : natDigits n ≠ [] :=
  (natDigitsAux_spec (n + 1) n (by omega)).1

/-- Every character of `natDigits` is a digit. -/
theorem natDigits_all_digits (n : ℕ) : ∀ ch ∈ natDigits n, ch.isDigit = true :=
  (natDigitsAux_spec (n + 1) n (by omega)).2

/-- Grouping a nonempty digit list yields a well-grouped list. -/
theorem groupRev_ok :
    ∀ l : List Char, l ≠ [] → (∀ ch ∈ l, ch.isDigit = true) →
      groupedRevOk (groupRev l) = true
  | [], hne, _ => absurd rfl hne
  | [a], _, hd => by
    simp [groupRev, groupedRevOk, hd a (by simp)]
  | [a, b], _, hd => by
    simp [groupRev, groupedRevOk, hd a (by simp), hd b (by simp)]
  | [a, b, c], _, hd => by
    simp [groupRev, groupedRevOk, hd a (by simp), hd b (by simp), hd c (by simp)]
  | a :: b :: c :: d :: rest, _, hd => by
    have ih := groupRev_ok (d :: rest) (by simp)
      (fun ch hch => hd ch (by simp at hch ⊢; tauto))
    simp [groupRev, groupedRevOk, hd a (by simp), hd b (by simp), hd c (by simp), ih]
termination_by l => l.length

/-- A grouped digit list (most significant first) passes the reversed
checker. -/
theorem groupThousands_ok (l : List Char) (hne : l ≠ [])
    (hd : ∀ ch ∈ l, ch.isDigit = true) :
    groupedRevOk (groupThousands l).reverse = true := by
  unfold groupThousands
  rw [List.reverse_reverse]
  refine groupRev_ok l.reverse (by simpa using hne) ?_
  intro ch hch
  exact hd ch (by simpa using hch)

/-- `padDigits` always yields exactly `d` characters. -/
theorem padDigits_length (n d : ℕ) : (padDigits n d).length = d := by
  induction d generalizing n with
  | zero => rfl
  | succ d ih => simp [padDigits, ih]

/-- `padDigits` yields only digits. -/
theorem padDigits_digits (n d : ℕ) : ∀ ch ∈ padDigits n d, ch.isDigit = true := by
  induction d generalizing n with
  | zero => simp [padDigits]
  | succ d ih =>
    intro ch hch
    simp only [padDigits, List.mem_append] at hch
    rcases hch with hch | hch
    · exact ih _ ch hch
    · simp at hch
      subst hch
      exact digitChar_isDigit _

/-- C8 (amended): prices in `send_alert` render with thousands grouping
and exactly two decimals; gas values render with exactly two decimals
and a `" gwei"` unit suffix; but the three vault TVL figures go through
plain `f"{x:,}"`: thousands grouping holds, yet an int shows no decimal
point at all and a float shows its shortest decimal expansion (a
trailing `.0` for integral values) — not two forced decimals. -/
theorem spec2_C8 :
    (∀ (s c : String) (p : ℚ), ∃ pre : String,
        send_alert_msg s p c = pre ++ fmtCommaFixed2 p)
    ∧ (∀ p : ℚ, ∃ (sign : String) (ip fr : List Char),
        fmtCommaFixed2 p = sign ++ ⟨ip⟩ ++ "." ++ ⟨fr⟩
        ∧ (sign = "" ∨ sign = "-")
        ∧ groupedRevOk ip.reverse = true
        ∧ fr.length = 2 ∧ ∀ ch ∈ fr, ch.isDigit = true)
    ∧ (∀ (k : GasMsgKind) (g c : ℚ), ∃ pre mid : String,
        gas_msg_text k g c
          = pre ++ (fmtFixed2 g ++ (" gwei" ++ (mid ++ (fmtFixed2 c ++ " gwei")))))
    ∧ (∀ g : ℚ, ∃ (sign : String) (ip fr : List Char),
        fmtFixed2 g = sign ++ ⟨ip⟩ ++ "." ++ ⟨fr⟩
        ∧ (sign = "" ∨ sign = "-")
        ∧ (∀ ch ∈ ip, ch.isDigit = true)
        ∧ fr.length = 2 ∧ ∀ ch ∈ fr, ch.isDigit = true)
    ∧ (∀ prev newv : PyNum, ∃ a b c' : String,
        vault_msg_text prev newv
          = a ++ (fmtComma prev ++ (b ++ (fmtComma newv
              ++ (c' ++ fmtComma (pySub newv prev))))))
    ∧ (∀ n : ℤ, ∃ (sign : String) (ip : List Char),
        fmtComma (PyNum.int n) = sign ++ ⟨ip⟩
        ∧ (sign = "" ∨ sign = "-") ∧ groupedRevOk ip.reverse = true)
    ∧ (∀ q : ℚ, ∃ (sign : String) (ip fr : List Char),
        fmtComma (PyNum.float q) = sign ++ ⟨ip⟩ ++ "." ++ ⟨fr⟩
        ∧ (sign = "" ∨ sign = "-")
        ∧ groupedRevOk ip.reverse = true
        ∧ fr.length = Nat.max 1 (decimalsNeeded q)
        ∧ ∀ ch ∈ fr, ch.isDigit = true) := by
  refine ⟨?_, ?_, ?_, ?_, ?_, ?_, ?_⟩
  · intro s c p
    exact ⟨"🚨 " ++ s ++ " Price Alert! 🚨\nУсловие: " ++ c ++ "\nТекущая цена: $",
      by simp [send_alert_msg, String.append_assoc]⟩
  · intro p
    refine ⟨if pyRound2 p < 0 then "-" else "",
      groupThousands (natDigits ((pyRound2 p).natAbs / 100)),
      padDigits ((pyRound2 p).natAbs % 100) 2, rfl, ?_, ?_, ?_, ?_⟩
    · by_cases h : pyRound2 p < 0 <;> simp [h]
    · exact groupThousands_ok _ (natDigits_ne_nil _) (natDigits_all_digits _)
    · exact padDigits_length _ _
    · exact padDigits_digits _ _
  · intro k g c
    exact ⟨gas_msg_head k ++ "Текущая цена: ", "\nПороговое значение: ",
      by simp [gas_msg_text, String.append_assoc]⟩
  · intro g
    refine ⟨if pyRound2 g < 0 then "-" else "",
      natDigits ((pyRound2 g).natAbs / 100),
      padDigits ((pyRound2 g).natAbs % 100) 2, rfl, ?_, ?_, ?_, ?_⟩
    · by_cases h : pyRound2 g < 0 <;> simp [h]
    · exact natDigits_all_digits _
    · exact padDigits_length _ _
    · exact padDigits_digits _ _
  · intro prev newv
    exact ⟨"📢 Gigavault max TVL увеличен!\nБыло: ", "\nСтало: ",
      "\nДоступное место появилось: ", rfl⟩
  · intro n
    refine ⟨if n < 0 then "-" else "", groupThousands (natDigits n.natAbs), rfl, ?_, ?_⟩
    · by_cases h : n < 0 <;> simp [h]
    · exact groupThousands_ok _ (natDigits_ne_nil _) (natDigits_all_digits _)
  · intro q
    refine ⟨if scaleByPow10 q (Nat.max 1 (decimalsNeeded q)) < 0 then "-" else "",
      groupThousands (natDigits ((scaleByPow10 q (Nat.max 1 (decimalsNeeded q))).natAbs
        / 10 ^ Nat.max 1 (decimalsNeeded q))),
      padDigits ((scaleByPow10 q (Nat.max 1 (decimalsNeeded q))).natAbs
        % 10 ^ Nat.max 1 (decimalsNeeded q)) (Nat.max 1 (decimalsNeeded q)),
      rfl, ?_, ?_, ?_, ?_⟩
    · by_cases h : scaleByPow10 q (Nat.max 1 (decimalsNeeded q)) < 0 <;> simp [h]
    · exact groupThousands_ok _ (natDigits_ne_nil _) (natDigits_all_digits _)
    · exact padDigits_length _ _
    · exact padDigits_digits _ _

/-- Counterexample to C8 as stated: the vault notification's figures are
NOT rendered with two decimal places — the startup float previous value
renders as `90,000,000.0` (one decimal) and an integer `max_tvl` renders
as `95,000,000` (none) — while the price and gas formatters do produce
two decimals. -/
theorem spec2_C8_cex :
    fmtComma (PyNum.float 90000000) = "90,000,000.0"
    ∧ twoDecString "90,000,000.0" = false
    ∧ twoDecString (fmtComma (PyNum.float 90000000)) = false
    ∧ fmtComma (PyNum.int 95000000) = "95,000,000"
    ∧ twoDecString (fmtComma (PyNum.int 95000000)) = false
    ∧ vault_msg_text (PyNum.float 90000000) (PyNum.float 95000000)
        = "📢 Gigavault max TVL увеличен!\nБыло: 90,000,000.0\nСтало: 95,000,000.0\nДоступное место появилось: 5,000,000.0"
    ∧ fmtCommaFixed2 94000 = "94,000.00"
    ∧ fmtFixed2 5 = "5.00" := by
  have hsub : pySub (PyNum.float 95000000) (PyNum.float 90000000)
      = PyNum.float 5000000 := by
    show PyNum.float ((95000000 : ℚ) - 90000000) = PyNum.float 5000000
    norm_num
  refine ⟨by decide, by decide, by decide, by decide, by decide, ?_, by decide, by decide⟩
  unfold vault_msg_text
  rw [hsub]
  decide

/-- Witness for C8 at a concrete alert: the BTC price message ends with
the `,.2f` rendering of the price. -/
theorem spec2_C8_witness :
    ∃ pre : String,
      send_alert_msg "BTC" 94000 "упал ниже $99000.0" = pre ++ fmtCommaFixed2 94000 :=
  spec2_C8.1 "BTC" "упал ниже $99000.0" 94000
